import Mathlib

/-!
Verification development for the `envx` configuration-loading library.

The Go source is shallowly embedded: each Lean definition mirrors one Go
function (named after it where possible).  Go `map[string]any` values are
modelled as association lists with last-writer-wins lookup, mirroring the
insertion order of the Go merge loop; machine integers are modelled as `Int`
with explicit two's-complement wrapping where the Go code stores into a
narrower field via reflection.
-/

namespace Envx

/-- An untyped provider value (`any` in the Go code).  The repository's
providers put strings (env vars, .env files, defaults, `Map`), JSON numbers
and JSON nulls into the flat map; the constructors below cover the shapes the
development exercises (JSON floats, bools and arrays are not needed by any
claim and are omitted from the model). -/
inductive Value where
  | vNull : Value
  | vStr : String → Value
  | vInt : Int → Value
deriving DecidableEq

/-! ## Key derivation: `toScreamingSnake` (providers.go)

The Go function iterates over the `[]rune` of the input; all its case tests
are ASCII range comparisons (`r >= 'A' && r <= 'Z'`, etc.), and the final
`strings.ToUpper` only affects letters.  We model runes as their `Nat`
codepoints, which makes the embedding exactly the arithmetic the Go code
performs, and wrap it back into `String` at the boundary. -/

/-- `r >= 'A' && r <= 'Z'` on a rune codepoint. -/
def isUpperRune (n : Nat) : Bool := 65 ≤ n && n ≤ 90

/-- `r >= 'a' && r <= 'z'` on a rune codepoint. -/
def isLowerRune (n : Nat) : Bool := 97 ≤ n && n ≤ 122

/-- `strings.ToUpper` restricted to one rune.  (For the ASCII alphabet that
key derivation manipulates this is the whole of `strings.ToUpper`; the Go
boundary tests above never fire on non-ASCII runes either.) -/
def upperRune (n : Nat) : Nat := if isLowerRune n then n - 32 else n

/-- The inner conditional of `toScreamingSnake`: decides whether a boundary
underscore is written before rune `r`, given the previous rune and the
following rune (if any).  Mirrors the Go control flow:
`if prev lowercase { '_' } else if next exists && next lowercase { '_' }`,
guarded by `r` being an uppercase letter. -/
def snakeBoundary (prev r : Nat) (next? : Option Nat) : Bool :=
  if isUpperRune r then
    if isLowerRune prev then true
    else match next? with
      | some n => isLowerRune n
      | none => false
  else false

/-- The rune loop of `toScreamingSnake` for positions `i > 0`; `prev` is the
rune at the preceding position. -/
def snakeAux : Nat → List Nat → List Nat
  | _, [] => []
  | prev, r :: rest =>
    (if snakeBoundary prev r rest.head? then [95, r] else [r]) ++ snakeAux r rest

/-- Body of `toScreamingSnake` on the rune sequence: run the boundary loop
(position 0 never receives a boundary since the Go code requires `i > 0`),
then uppercase everything. -/
def snakeRunes : List Nat → List Nat
  | [] => []
  | c :: rest => (c :: snakeAux c rest).map upperRune

/-- `toScreamingSnake` (providers.go): converts CamelCase to
SCREAMING_SNAKE_CASE. -/
def toScreamingSnake (s : String) : String :=
  String.mk ((snakeRunes (s.data.map Char.toNat)).map Char.ofNat)

/-- The key-derivation algorithm exactly as the specification words it:
boundary before an uppercase letter when the preceding character is
lowercase, or the preceding character is *uppercase* and the following
character is lowercase.  (The code's `toScreamingSnake` drops the
"preceding character is uppercase" test in the second disjunct.) -/
def snakeBoundarySpecC5 (prev r : Nat) (next? : Option Nat) : Bool :=
  isUpperRune r &&
    (isLowerRune prev ||
      (isUpperRune prev &&
        (match next? with
          | some n => isLowerRune n
          | none => false)))

/-- The spec-worded algorithm lifted to rune lists, for comparison with
`snakeAux`. -/
def snakeAuxSpecC5 : Nat → List Nat → List Nat
  | _, [] => []
  | prev, r :: rest =>
    (if snakeBoundarySpecC5 prev r rest.head? then [95, r] else [r]) ++ snakeAuxSpecC5 r rest

/-- The spec-worded key derivation on strings. -/
def toScreamingSnakeSpecC5 (s : String) : String :=
  match s.data.map Char.toNat with
  | [] => ""
  | c :: rest => String.mk (((c :: snakeAuxSpecC5 c rest).map upperRune).map Char.ofNat)

/-! ### Character-level facts used for idempotency -/

theorem isLowerRune_upperRune (n : Nat) : isLowerRune (upperRune n) = false := by
  simp only [upperRune, isLowerRune]
  split <;> rename_i h <;> simp_all <;> omega

theorem upperRune_upperRune (n : Nat) : upperRune (upperRune n) = upperRune n := by
  conv_lhs => rw [upperRune]
  rw [isLowerRune_upperRune]
  simp

theorem snakeAux_of_no_lower (prev : Nat) (l : List Nat)
    (hp : isLowerRune prev = false) (hl : ∀ x ∈ l, isLowerRune x = false) :
    snakeAux prev l = l := by
  induction l generalizing prev with
  | nil => rfl
  | cons r rest ih =>
    have hr : isLowerRune r = false := hl r (by simp)
    have hrest : ∀ x ∈ rest, isLowerRune x = false := fun x hx => hl x (by simp [hx])
    have hb : snakeBoundary prev r rest.head? = false := by
      simp only [snakeBoundary]
      split
      · rw [hp]
        simp only [if_false, Bool.false_eq_true]
        cases hh : rest.head? with
        | none => rfl
        | some n =>
          have : n ∈ rest := by
            cases rest with
            | nil => simp at hh
            | cons a t =>
              simp only [List.head?, Option.some.injEq] at hh
              simp [hh]
          exact hrest n this
      · rfl
    simp only [snakeAux, hb, if_false]
    simpa using congrArg (r :: ·) (ih r hr hrest)

theorem map_upperRune_of_no_lower (l : List Nat)
    (hl : ∀ x ∈ l, isLowerRune x = false) : l.map upperRune = l := by
  induction l with
  | nil => rfl
  | cons r rest ih =>
    have hr : isLowerRune r = false := hl r (by simp)
    simp only [List.map_cons]
    rw [ih (fun x hx => hl x (by simp [hx]))]
    simp [upperRune, hr]

theorem no_lower_snakeRunes (l : List Nat) :
    ∀ x ∈ snakeRunes l, isLowerRune x = false := by
  intro x hx
  cases l with
  | nil => simp [snakeRunes] at hx
  | cons c rest =>
    simp only [snakeRunes, List.mem_map] at hx
    obtain ⟨y, _, rfl⟩ := hx
    exact isLowerRune_upperRune y

theorem snakeRunes_idem (l : List Nat) : snakeRunes (snakeRunes l) = snakeRunes l := by
  cases l with
  | nil => rfl
  | cons c rest =>
    have h := no_lower_snakeRunes (c :: rest)
    cases hout : snakeRunes (c :: rest) with
    | nil => simp [snakeRunes]
    | cons u us =>
      have hu : isLowerRune u = false := by
        have := h u; rw [hout] at this; exact this (by simp)
      have hus : ∀ x ∈ us, isLowerRune x = false := by
        intro x hx
        have := h x; rw [hout] at this; exact this (by simp [hx])
      have hall : ∀ x ∈ u :: us, upperRune x = x := by
        intro x hx
        rcases List.mem_cons.mp hx with rfl | hx'
        · simp [upperRune, hu]
        · simp [upperRune, hus x hx']
      simp only [snakeRunes]
      rw [snakeAux_of_no_lower u us hu hus]
      calc (u :: us).map upperRune = (u :: us).map id := List.map_congr_left (by simpa using hall)
        _ = u :: us := by simp

/-! ### Round trip through `Char` for the string wrapper -/

theorem char_toNat_ofNat (n : Nat) (h : n.isValidChar) : (Char.ofNat n).toNat = n := by
  simp only [Char.ofNat, h, dif_pos]
  rfl

theorem char_valid_toNat (c : Char) : c.toNat.isValidChar := by
  have := c.valid
  unfold Nat.isValidChar
  unfold UInt32.isValidChar at this
  simp only [Char.toNat]
  omega

theorem valid_upperRune (n : Nat) (h : n.isValidChar) : (upperRune n).isValidChar := by
  unfold Nat.isValidChar at h ⊢
  simp only [upperRune, isLowerRune]
  split <;> rename_i hs <;> simp_all <;> omega

theorem mem_snakeAux (prev : Nat) (l : List Nat) (x : Nat) (hx : x ∈ snakeAux prev l) :
    x = 95 ∨ x ∈ l := by
  induction l generalizing prev with
  | nil => simp [snakeAux] at hx
  | cons r rest ih =>
    simp only [snakeAux] at hx
    rcases List.mem_append.mp hx with h1 | h2
    · split at h1
      · rcases List.mem_cons.mp h1 with rfl | h1'
        · exact Or.inl rfl
        · simp only [List.mem_singleton] at h1'
          exact Or.inr (by simp [h1'])
      · simp only [List.mem_singleton] at h1
        exact Or.inr (by simp [h1])
    · rcases ih r h2 with h | h
      · exact Or.inl h
      · exact Or.inr (by simp [h])

theorem valid_snakeRunes (l : List Nat) (hl : ∀ x ∈ l, x.isValidChar) :
    ∀ x ∈ snakeRunes l, x.isValidChar := by
  intro x hx
  cases l with
  | nil => simp [snakeRunes] at hx
  | cons c rest =>
    simp only [snakeRunes, List.mem_map] at hx
    obtain ⟨y, hy, rfl⟩ := hx
    apply valid_upperRune
    rcases List.mem_cons.mp hy with rfl | hy'
    · exact hl y (by simp)
    · rcases mem_snakeAux c rest y hy' with rfl | h
      · unfold Nat.isValidChar; omega
      · exact hl y (by simp [h])

theorem map_toNat_map_ofNat (l : List Nat) (hl : ∀ x ∈ l, x.isValidChar) :
    (l.map Char.ofNat).map Char.toNat = l := by
  induction l with
  | nil => rfl
  | cons x rest ih =>
    simp only [List.map_cons]
    rw [char_toNat_ofNat x (hl x (by simp)), ih (fun y hy => hl y (by simp [hy]))]

/-- Idempotency of key derivation at the string level. -/
theorem toScreamingSnake_idem (s : String) :
    toScreamingSnake (toScreamingSnake s) = toScreamingSnake s := by
  unfold toScreamingSnake
  have hvalid : ∀ x ∈ s.data.map Char.toNat, x.isValidChar := by
    intro x hx
    simp only [List.mem_map] at hx
    obtain ⟨c, _, rfl⟩ := hx
    exact char_valid_toNat c
  have hdata : (String.mk ((snakeRunes (s.data.map Char.toNat)).map Char.ofNat)).data
      = (snakeRunes (s.data.map Char.toNat)).map Char.ofNat := rfl
  rw [hdata, map_toNat_map_ofNat _ (valid_snakeRunes _ hvalid), snakeRunes_idem]

example : toScreamingSnake "Port" = "PORT" := by decide
example : toScreamingSnake "DatabaseURL" = "DATABASE_URL" := by decide
example : toScreamingSnake "HTTPServer" = "HTTP_SERVER" := by decide
example : toScreamingSnake "JWTSecret" = "JWT_SECRET" := by decide
example : toScreamingSnake "A1Bc" = "A1_BC" := by decide
example : toScreamingSnakeSpecC5 "A1Bc" = "A1BC" := by decide

/-! ## Flat mappings and the merger (loader.go `loadInternal`, `applyPrefix`)

A Go `map[string]any` written by repeated insertion is modelled as an
association list where the *last* binding of a key wins, mirroring
`values[k] = val` overwriting earlier entries. -/

/-- The flat key → value mapping built per resolution pass. -/
abbrev FlatMap := List (String × Value)

/-- Lookup in a `FlatMap`: the most recently inserted binding of `k` wins,
like a Go map after a sequence of insertions. -/
def lookupLast (m : FlatMap) (k : String) : Option Value :=
  match m with
  | [] => none
  | (k', v) :: rest =>
    match lookupLast rest k with
    | some r => some r
    | none => if k' = k then some v else none

/-- `applyPrefix` (loader.go): rewrite every key of a provider's output by
prepending `<PREFIX>_`; a provider map is returned unchanged for an empty
prefix. -/
def applyPrefix (values : FlatMap) (pfx : String) : FlatMap :=
  if pfx = "" then values
  else values.map (fun kv => (pfx ++ "_" ++ kv.1, kv.2))

/-- A provider as seen by `loadInternal`: its `Values()` result, and the
outcome of the `prefixAware` type assertion (`ok && pa.PrefixAware()` in the
Go code; `false` both for providers without the method and for providers
whose method returns false). -/
structure ProviderM where
  values : Except String FlatMap
  prefixAware : Bool

/-- The provider-merge loop of `loadInternal` (loader.go): invoke each
provider in order, abort on the first provider error, prefix-adjust the
output of non-prefix-aware providers when a prefix is configured, and insert
the pairs into the accumulator so that later providers overwrite earlier
ones on key collision. -/
def mergeProviders (pfx : String) : List ProviderM → Except String FlatMap
  | [] => .ok []
  | p :: rest =>
    match p.values with
    | .error e => .error e
    | .ok v =>
      let v' := if pfx ≠ "" && !p.prefixAware then applyPrefix v pfx else v
      match mergeProviders pfx rest with
      | .error e => .error e
      | .ok acc => .ok (v' ++ acc)

/-! ## String-to-value coercions (parser.go, Go strconv / time) -/

/-- Decimal digit accumulator used by the `strconv` and duration models. -/
def digitsToNat (l : List Char) : Nat :=
  l.foldl (fun a c => a * 10 + (c.toNat - 48)) 0

/-- All characters are ASCII decimal digits. -/
def allDigits (l : List Char) : Bool := l.all Char.isDigit

/-- `strconv.ParseInt(s, 10, 64)`: optional sign, then a non-empty run of
decimal digits, range-checked against int64. -/
def parseInt64 (s : String) : Except String Int :=
  let (neg, ds) :=
    match s.data with
    | '-' :: t => (true, t)
    | '+' :: t => (false, t)
    | t => (false, t)
  if ds = [] then .error "invalid syntax"
  else if !allDigits ds then .error "invalid syntax"
  else
    let v : Int := if neg then -(digitsToNat ds : Int) else (digitsToNat ds : Int)
    if v < -(2 ^ 63) || 2 ^ 63 - 1 < v then .error "value out of range"
    else .ok v

/-- `strconv.ParseUint(s, 10, 64)`: a non-empty run of decimal digits — no
sign prefix is permitted — range-checked against uint64. -/
def parseUint64 (s : String) : Except String Nat :=
  if s.data = [] then .error "invalid syntax"
  else if !allDigits s.data then .error "invalid syntax"
  else
    let v := digitsToNat s.data
    if 2 ^ 64 - 1 < v then .error "value out of range"
    else .ok v

/-- The unit table of `time.ParseDuration`, on the rune list of the unit
token. -/
def durUnitVal (u : List Char) : Option Int :=
  if u = "ns".data then some 1
  else if u = "us".data then some 1000
  else if u = "µs".data then some 1000
  else if u = "μs".data then some 1000
  else if u = "ms".data then some 1000000
  else if u = "s".data then some 1000000000
  else if u = "m".data then some 60000000000
  else if u = "h".data then some 3600000000000
  else none

/-- A character belongs to a unit token iff it is neither a digit nor `.`
(the scan loop of `time.ParseDuration`). -/
def isUnitChar (c : Char) : Bool := !(c.isDigit || c = '.')

/-- The term loop of `time.ParseDuration`, fuelled by the input length (each
iteration consumes at least the non-empty unit token, so the fuel never runs
out on inputs the Go loop terminates on).  Each term is
`digits [. digits] unit`; terms are summed.  Go computes the fractional
contribution as `int64(float64(f) * (float64(unit)/float64(scale)))`; the
model uses the exact truncated rational `f * unit / scale`, which agrees on
the decimal fractions of practical unit sizes (no claim exercises a
fractional duration).  Go's overflow checks are omitted: every claim stays
far below the int64 bounds. -/
def parseDurLoop : Nat → List Char → Except String Int
  | 0, _ => .error "invalid duration"
  | _ + 1, [] => .ok 0
  | fuel + 1, l =>
    let ds := l.takeWhile Char.isDigit
    let r1 := l.dropWhile Char.isDigit
    let (f, scale, r2) :=
      match r1 with
      | '.' :: t => (digitsToNat (t.takeWhile Char.isDigit),
                     (10 : Int) ^ (t.takeWhile Char.isDigit).length,
                     t.dropWhile Char.isDigit)
      | t => (0, 1, t)
    let hasFrac :=
      match r1 with
      | '.' :: t => !(t.takeWhile Char.isDigit).isEmpty
      | _ => false
    if ds.isEmpty && !hasFrac then .error "invalid duration"
    else
      let u := r2.takeWhile isUnitChar
      let rest := r2.dropWhile isUnitChar
      if u.isEmpty then .error "missing unit in duration"
      else
        match durUnitVal u with
        | none => .error "unknown unit in duration"
        | some unit =>
          match parseDurLoop fuel rest with
          | .error e => .error e
          | .ok d => .ok ((digitsToNat ds : Int) * unit + (f : Int) * unit / scale + d)

/-- `time.ParseDuration`: optional sign, special-cased `"0"`, then the term
loop. -/
def parseDurGo (s : String) : Except String Int :=
  let (neg, l) :=
    match s.data with
    | '-' :: t => (true, t)
    | '+' :: t => (false, t)
    | t => (false, t)
  if l = ['0'] then .ok 0
  else if l = [] then .error "invalid duration"
  else
    match parseDurLoop (l.length + 1) l with
    | .error e => .error e
    | .ok d => .ok (if neg then -d else d)

example : parseDurGo "5m30s" = .ok 330000000000 := by rfl
example : parseDurGo "1h" = .ok 3600000000000 := by rfl
example : (parseDurGo "300").isOk = false := by rfl
example : parseInt64 "300" = .ok 300 := by rfl
example : (parseInt64 "").isOk = false := by rfl

/-! ## Target records (parser.go)

The reflection-driven field walk is embedded as an explicit field-tree
description: a struct is an ordered list of fields, each carrying its Go
name, its `required:"true"` tag, and its type.  Leaf types cover the kinds
the claims exercise: `string`, `int`/`int64` (64-bit), `int8` and `uint8`
(to witness narrow-width signed and unsigned stores), and `time.Duration`
(the special-cased leaf). -/

/-- Leaf field kinds. -/
inductive Ty where
  | tStr : Ty
  | tInt : Ty
  | tInt8 : Ty
  | tUint8 : Ty
  | tDuration : Ty
deriving DecidableEq

/-- A bound leaf value (the content of the reflect field after `setField`). -/
inductive LeafVal where
  | s : String → LeafVal
  | i : Int → LeafVal
  | i8 : Int → LeafVal
  | u8 : Nat → LeafVal
  | dur : Int → LeafVal
deriving DecidableEq

/-- The zero value of a leaf type (Go default initialization). -/
def zeroLeaf : Ty → LeafVal
  | .tStr => .s ""
  | .tInt => .i 0
  | .tInt8 => .i8 0
  | .tUint8 => .u8 0
  | .tDuration => .dur 0

/-- `reflect.Value.IsZero` on the modelled leaf kinds. -/
def isZeroLeaf : LeafVal → Bool
  | .s x => x = ""
  | .i n => n = 0
  | .i8 n => n = 0
  | .u8 n => n = 0
  | .dur n => n = 0

mutual
/-- The type of one field: a leaf, or a nested struct recursed into with an
extended path (`time.Time`, the opaque temporal leaf, is not modelled as a
nested struct and no claim exercises it). -/
inductive FieldTy where
  | leaf : Ty → FieldTy
  | strct : FieldList → FieldTy
/-- An ordered list of struct fields: Go name, `required:"true"` tag, type.
All modelled fields are exported (the Go walk skips unexported fields via
`CanSet`). -/
inductive FieldList where
  | fnil : FieldList
  | fcons : String → Bool → FieldTy → FieldList → FieldList
end

mutual
/-- A record value matching a `FieldTy`. -/
inductive RVal where
  | leaf : LeafVal → RVal
  | strct : RVals → RVal
/-- The field values of a struct, in field order. -/
inductive RVals where
  | rnil : RVals
  | rcons : RVal → RVals → RVals
end

mutual
def decEqRVal : (a b : RVal) → Decidable (a = b)
  | .leaf x, .leaf y =>
    match decEq x y with
    | isTrue h => isTrue (by rw [h])
    | isFalse h => isFalse (fun hh => h (by injection hh))
  | .leaf _, .strct _ => isFalse (by intro h; exact absurd h (by simp))
  | .strct _, .leaf _ => isFalse (by intro h; exact absurd h (by simp))
  | .strct x, .strct y =>
    match decEqRVals x y with
    | isTrue h => isTrue (by rw [h])
    | isFalse h => isFalse (fun hh => h (by injection hh))
def decEqRVals : (a b : RVals) → Decidable (a = b)
  | .rnil, .rnil => isTrue rfl
  | .rnil, .rcons _ _ => isFalse (by intro h; exact absurd h (by simp))
  | .rcons _ _, .rnil => isFalse (by intro h; exact absurd h (by simp))
  | .rcons a as, .rcons b bs =>
    match decEqRVal a b, decEqRVals as bs with
    | isTrue h1, isTrue h2 => isTrue (by rw [h1, h2])
    | isFalse h1, _ => isFalse (fun hh => h1 (by injection hh))
    | _, isFalse h2 => isFalse (fun hh => h2 (by injection hh))
end

instance : DecidableEq RVal := decEqRVal

instance : DecidableEq RVals := decEqRVals

mutual
/-- Default initialization of a record: every leaf at its zero value. -/
def zeroOf : FieldTy → RVal
  | .leaf t => .leaf (zeroLeaf t)
  | .strct fs => .strct (zeroOfList fs)
def zeroOfList : FieldList → RVals
  | .fnil => .rnil
  | .fcons _ _ ty rest => .rcons (zeroOf ty) (zeroOfList rest)
end

/-! ## Errors (envx error taxonomy) -/

/-- The sentinel error kinds wrapped inside `envx.Error`. -/
inductive ErrKind where
  | required : ErrKind
  | validation : ErrKind
  | parse : ErrKind
  | unsupportedType : ErrKind
deriving DecidableEq

/-- An error surfaced by a resolution pass: a raw provider error (returned
unwrapped by `loadInternal`), or an `envx.Error{Field, Err}`. -/
inductive LoadErr where
  | provider : String → LoadErr
  | fieldErr : String → ErrKind → LoadErr
deriving DecidableEq

/-! ## The binder (parser.go `parseStruct` / `setField`) -/

/-- `fmt.Sprintf("%v", val)` on the modelled value shapes (the string
destination case of `setField`). -/
def goStringify (v : Value) : String :=
  match v with
  | .vNull => "<nil>"
  | .vStr s => s
  | .vInt n => toString n

/-- `int8(x)` on an int64: two's-complement truncation to 8 bits.  This is
what `reflect.Value.SetInt` performs for an `int8` destination — it stores
the converted value and performs no range check (see `value.go`:
`case Int8: *(*int8)(v.ptr) = int8(x)`). -/
def wrap8 (n : Int) : Int :=
  let m := n % 256
  if m < 128 then m else m - 256

/-- `uint8(x)` on a uint64: truncation to the low 8 bits.  This is what
`reflect.Value.SetUint` performs for a `uint8` destination — it stores the
converted value and performs no range check (see `value.go`:
`case Uint8: *(*uint8)(v.ptr) = uint8(x)`). -/
def wrapU8 (n : Nat) : Nat := n % 256

/-- `setDuration` (parser.go): a duration field accepts a duration string
(via `time.ParseDuration`) or a native int64 nanosecond count; anything else
is an invalid-type error.  (The Go `float64` case is outside the modelled
value shapes.) -/
def setDuration (val : Value) : Except String Int :=
  match val with
  | .vStr s => parseDurGo s
  | .vInt n => .ok n
  | .vNull => .error "invalid duration type"

/-- `setField` (parser.go) for the modelled leaf kinds.  String fields
stringify anything; int fields accept a native integer or a base-10 string
(`strconv.ParseInt(_, 10, 64)`), the parsed/native int64 then being stored
by `reflect.Value.SetInt`, which truncates to the destination width; uint
fields (`setUintValue`) accept a base-10 string via
`strconv.ParseUint(_, 10, 64)` stored by `reflect.Value.SetUint`, again
truncating to the destination width — a native signed integer does not
match `setUintValue`'s `uint` cases and falls to its default error, as does
nil; a duration-typed field goes through `setDuration`. -/
def setField (t : Ty) (val : Value) : Except String LeafVal :=
  match t with
  | .tStr => .ok (.s (goStringify val))
  | .tInt =>
    (match val with
     | .vInt n => .ok (.i n)
     | .vStr s => (parseInt64 s).map .i
     | .vNull => .error "invalid int value")
  | .tInt8 =>
    (match val with
     | .vInt n => .ok (.i8 (wrap8 n))
     | .vStr s => (parseInt64 s).map (fun n => .i8 (wrap8 n))
     | .vNull => .error "invalid int value")
  | .tUint8 =>
    (match val with
     | .vStr s => (parseUint64 s).map (fun n => .u8 (wrapU8 n))
     | .vInt _ => .error "invalid uint value"
     | .vNull => .error "invalid uint value")
  | .tDuration => (setDuration val).map .dur

/-- The lookup key of a leaf field (parser.go `parseStruct`):
`key := path + toScreamingSnake(field.Name)`, then
`key = prefix + "_" + key` when a prefix is configured. -/
def leafKey (name path pfx : String) : String :=
  if pfx ≠ "" then pfx ++ "_" ++ (path ++ toScreamingSnake name)
  else path ++ toScreamingSnake name

mutual
/-- One iteration of the field loop of `parseStruct` (parser.go): nested
structs are recursed into with the path extended by
`toScreamingSnake(name) ++ "_"`; for a leaf the canonical key is computed
(prefixed when a global prefix is set), looked up, and a missing or nil
value leaves the field at its zero value, while a coercion failure aborts
with a `Parse` error naming the key. -/
def parseFieldOne (name : String) (ty : FieldTy) (path : String) (m : FlatMap)
    (pfx : String) : Except LoadErr RVal :=
  match ty with
  | .strct fs =>
    match parseFieldList fs (path ++ toScreamingSnake name ++ "_") m pfx with
    | .error e => .error e
    | .ok vs => .ok (.strct vs)
  | .leaf t =>
    let key := leafKey name path pfx
    match lookupLast m key with
    | none => .ok (.leaf (zeroLeaf t))
    | some .vNull => .ok (.leaf (zeroLeaf t))
    | some v =>
      match setField t v with
      | .ok lv => .ok (.leaf lv)
      | .error _ => .error (.fieldErr key .parse)
/-- The field loop of `parseStruct`, aborting at the first field error. -/
def parseFieldList (fs : FieldList) (path : String) (m : FlatMap)
    (pfx : String) : Except LoadErr RVals :=
  match fs with
  | .fnil => .ok .rnil
  | .fcons name _req ty rest =>
    match parseFieldOne name ty path m pfx with
    | .error e => .error e
    | .ok v =>
      match parseFieldList rest path m pfx with
      | .error e => .error e
      | .ok vs => .ok (.rcons v vs)
end

/-- `parse` (parser.go) on a struct target: walk the fields from the root
with an empty path.  (The non-struct/nil-target `UnsupportedType` guard is
not modelled: the claims only concern struct targets.) -/
def parseGo (ty : FieldList) (m : FlatMap) (pfx : String) : Except LoadErr RVals :=
  parseFieldList ty "" m pfx

/-! ## Required-field validation (parser.go `validateRequired` / `checkRequired`) -/

mutual
/-- `checkRequired` (parser.go): depth-first walk of the bound record;
nested structs recurse with the path extended by
`toScreamingSnake(name) ++ "_"`; a leaf tagged `required:"true"` whose value
is zero aborts with a `Required` error naming `path + toScreamingSnake(name)`
— note the global prefix is *not* consulted here. -/
def checkRequiredOne (name : String) (req : Bool) (ty : FieldTy) (v : RVal)
    (path : String) : Option LoadErr :=
  match ty, v with
  | .strct fs, .strct vs =>
    checkRequiredList fs vs (path ++ toScreamingSnake name ++ "_")
  | .leaf _, .leaf lv =>
    if req && isZeroLeaf lv then
      some (.fieldErr (path ++ toScreamingSnake name) .required)
    else none
  | _, _ => none
/-- The field loop of `checkRequired`; the bound record produced by the
binder always matches the field shapes, so the mismatch cases are
unreachable on the values this development feeds in. -/
def checkRequiredList (fs : FieldList) (vs : RVals) (path : String) : Option LoadErr :=
  match fs, vs with
  | .fnil, _ => none
  | .fcons _ _ _ _, .rnil => none
  | .fcons name req ty rest, .rcons v vrest =>
    match checkRequiredOne name req ty v path with
    | some e => some e
    | none => checkRequiredList rest vrest path
end

/-- `validateRequired` (parser.go): start the walk at the root with an empty
path. -/
def validateRequired (ty : FieldList) (vs : RVals) : Option LoadErr :=
  checkRequiredList ty vs ""

/-! ## Validator chain and `loadInternal` (loader.go) -/

/-- A validator callback as `loadInternal` sees it: `none` means the
callback accepted the record; `some msg` is its non-nil error. -/
abbrev ValidatorM := RVal → Option String

/-- `runOptionValidator` followed by `wrapValidationError` (loader.go): a
missing validator passes; a rejection becomes
`Error{Field: "config", Err: ErrValidation ...}`. -/
def runOptionValidator (v : Option ValidatorM) (cfg : RVal) : Option LoadErr :=
  match v with
  | none => none
  | some f =>
    match f cfg with
    | none => none
    | some _ => some (.fieldErr "config" .validation)

/-- `runTypeValidator` followed by `wrapValidationError` (loader.go): the
record type's own `Validate()`, when the type implements `Validator`. -/
def runTypeValidator (v : Option ValidatorM) (cfg : RVal) : Option LoadErr :=
  match v with
  | none => none
  | some f =>
    match f cfg with
    | none => none
    | some _ => some (.fieldErr "config" .validation)

/-- The options record after `prepareOptions`, restricted to what
`loadInternal` consumes: the ordered provider list, the (already
upper-cased) key prefix, the caller validator, and the type-intrinsic
validator (`none` when `T` does not implement `Validator`). -/
structure OptionsM where
  providers : List ProviderM
  pfx : String
  validator : Option ValidatorM
  typeValidator : Option ValidatorM

/-- `loadInternal` (loader.go): merge the providers, bind the struct,
check required fields, then run the caller validator and the type validator,
aborting at the first failing stage. -/
def loadInternal (o : OptionsM) (ty : FieldList) : Except LoadErr RVal :=
  match mergeProviders o.pfx o.providers with
  | .error e => .error (.provider e)
  | .ok values =>
    match parseGo ty values o.pfx with
    | .error e => .error e
    | .ok vals =>
      match validateRequired ty vals with
      | some e => .error e
      | none =>
        match runOptionValidator o.validator (.strct vals) with
        | some e => .error e
        | none =>
          match runTypeValidator o.typeValidator (.strct vals) with
          | some e => .error e
          | none => .ok (.strct vals)

/-! ## The reloadable `Loader` (loader.go) -/

/-- The `(instance, version)` pair guarded by the Loader's lock.  `config`
is `none` before the first successful load (a nil `*T` in Go). -/
structure LoaderState where
  config : Option RVal
  version : Int
deriving DecidableEq

/-- `NewLoader` leaves the state empty: nil instance, version 0. -/
def newLoaderState : LoaderState := { config := none, version := 0 }

/-- `loadLocked` (loader.go), the body of `Load()`: one resolution; on error
the state is untouched and the error returned; on success the new instance
is swapped in and the version incremented — unconditionally, with no
comparison against the held instance. -/
def loadLocked (o : OptionsM) (ty : FieldList) (st : LoaderState) :
    LoaderState × Except LoadErr RVal :=
  match loadInternal o ty with
  | .error e => (st, .error e)
  | .ok cfg => ({ config := some cfg, version := st.version + 1 }, .ok cfg)

/-- `reloadConfig` (loader.go), the Watcher's background reload path: one
resolution under the lock; on error the state is untouched (the error goes
to the logger / reload-error callback, not modelled here); on success the
new record is compared to the held one by `reflect.DeepEqual` and, only if
different, the instance is swapped, the version incremented and the reload
callback scheduled.  The returned Boolean reports whether the reload
callback was scheduled (`triggerOnReload`). -/
def reloadConfig (o : OptionsM) (ty : FieldList) (st : LoaderState) :
    LoaderState × Bool :=
  match loadInternal o ty with
  | .error _ => (st, false)
  | .ok newCfg =>
    if st.config = some newCfg then (st, false)
    else ({ config := some newCfg, version := st.version + 1 }, true)

/-! ## Watcher shutdown as an interleaving model (loader.go
`watchLoop.run`, `StopWatching`, `triggerOnReload`)

The synchronization objects of the Go code are modelled explicitly: the
`stop` channel as a closed-flag, the `watchWG` WaitGroup as a loop-exited
flag (the loop goroutine is the only `Add(1)`), and — crucially — the
reload callbacks spawned by `triggerOnReload` via `go l.onReload(...)` as a
counter of pending goroutines, because they are *not* tracked by the
WaitGroup.  Each transition is one atomic observable step of one of the
three parties (poll loop, `StopWatching` caller, a spawned callback
goroutine). -/

/-- Shared state of the Loader, the poll loop and spawned callbacks. -/
structure WatchSys where
  /-- `l.isWatching`. -/
  watching : Bool
  /-- the `stop` channel has been closed. -/
  stopClosed : Bool
  /-- the poll goroutine has returned (its deferred `wg.Done()` ran). -/
  loopDone : Bool
  /-- the `StopWatching` call has returned to its caller. -/
  stopReturned : Bool
  /-- reload-callback goroutines spawned by `triggerOnReload` that have not
  executed yet. -/
  pendingCallbacks : Nat
  /-- reload-callback invocations that have executed. -/
  firedCallbacks : Nat
deriving DecidableEq

/-- Labels for the observable steps. -/
inductive WLabel where
  | tickReload
  | loopExit
  | stopSignal
  | stopReturn
  | stopNoop
  | runCallback
deriving DecidableEq

/-- One interleaved step.  `tickReload` is a poll tick that observes an
advanced modification time and performs a successful, structurally-different
reload: `reloadConfig` runs inside the loop goroutine, so it requires the
loop to still be live, and `triggerOnReload` spawns (but does not run) a
callback goroutine; Go's `select` picks randomly among ready cases, so a
tick may still be processed after `stop` is closed.  `loopExit` is the loop
taking the `<-stop` case.  `stopSignal` is the first half of `StopWatching`
(flag flip and `close(stop)` under the lock); `stopReturn` is its
`wg.Wait()` completing, which requires the loop goroutine to have exited.
`stopNoop` is `StopWatching` on a non-watching Loader: it returns
immediately, changing nothing.  `runCallback` is a spawned callback
goroutine getting scheduled and running — nothing in the code prevents this
from happening at any later point. -/
inductive WStep : WatchSys → WLabel → WatchSys → Prop where
  | tickReload (s : WatchSys) (h : s.loopDone = false) :
      WStep s .tickReload { s with pendingCallbacks := s.pendingCallbacks + 1 }
  | loopExit (s : WatchSys) (h1 : s.stopClosed = true) (h2 : s.loopDone = false) :
      WStep s .loopExit { s with loopDone := true }
  | stopSignal (s : WatchSys) (h : s.watching = true) :
      WStep s .stopSignal { s with watching := false, stopClosed := true }
  | stopReturn (s : WatchSys) (h1 : s.stopClosed = true) (h2 : s.loopDone = true)
      (h3 : s.stopReturned = false) :
      WStep s .stopReturn { s with stopReturned := true }
  | stopNoop (s : WatchSys) (h : s.watching = false) :
      WStep s .stopNoop s
  | runCallback (s : WatchSys) (n : Nat) (h : s.pendingCallbacks = n + 1) :
      WStep s .runCallback
        { s with pendingCallbacks := n, firedCallbacks := s.firedCallbacks + 1 }

/-- A state is reachable from another by any interleaving of steps. -/
def WReach : WatchSys → WatchSys → Prop :=
  Relation.ReflTransGen (fun a b => ∃ lab, WStep a lab b)

/-- The state right after `StartWatching` succeeded: watching, loop live,
nothing stopped, no callbacks. -/
def watchInit : WatchSys :=
  { watching := true, stopClosed := false, loopDone := false,
    stopReturned := false, pendingCallbacks := 0, firedCallbacks := 0 }

/-! ## Concrete fixtures shared by the claim theorems -/

/-- `type Config struct { Port int }`. -/
def tyPort : FieldList := .fcons "Port" false (.leaf .tInt) .fnil

/-- `type Config struct { Port int ` followed by a required tag. -/
def tyPortReq : FieldList := .fcons "Port" true (.leaf .tInt) .fnil

/-- A bound `Config{Port: n}`. -/
def portVal (n : Int) : RVal := .strct (.rcons (.leaf (.i n)) .rnil)

/-- A `Map(...)`-style provider: fixed pairs, not prefix-aware. -/
def strProvider (kvs : FlatMap) : ProviderM := { values := .ok kvs, prefixAware := false }

/-- Options with the given providers and prefix and no validators. -/
def noValidators (ps : List ProviderM) (pfx : String) : OptionsM :=
  { providers := ps, pfx := pfx, validator := none, typeValidator := none }

end Envx

namespace Envx

/-! ## Claim C1 -/

/-- C1: a successful `Load()` (`loadLocked`) swaps in the new instance and
increments the version by exactly one, with no comparison against the held
instance — even when the resolved record equals the held one; the Watcher's
`reloadConfig`, on a successful re-resolution, leaves both instance and
version unchanged and fires no callback when the new record deep-equals the
held one, and swaps, increments and fires the callback when it differs. -/
theorem load_always_bumps_version_watcher_only_on_change
    (o : OptionsM) (ty : FieldList) (st : LoaderState) (cfg : RVal)
    (h : loadInternal o ty = .ok cfg) :
    loadLocked o ty st = ({ config := some cfg, version := st.version + 1 }, .ok cfg)
    ∧ (st.config = some cfg → reloadConfig o ty st = (st, false))
    ∧ (st.config ≠ some cfg →
        reloadConfig o ty st = ({ config := some cfg, version := st.version + 1 }, true)) := by
  refine ⟨by simp [loadLocked, h], fun heq => by simp [reloadConfig, h, heq],
    fun hne => by simp [reloadConfig, h, hne]⟩

/-- Witness for C1 on a concrete pipeline: resolving `PORT=9000` into
`{Port int}` held at version 5 with identical content still bumps `Load()`'s
version to 6, while the Watcher's reload path keeps version 5 and fires no
callback; from an empty holder the Watcher path does swap and fire. -/
theorem load_always_bumps_version_watcher_only_on_change_witness :
    loadInternal (noValidators [strProvider [("PORT", .vStr "9000")]] "") tyPort
      = .ok (portVal 9000)
    ∧ loadLocked (noValidators [strProvider [("PORT", .vStr "9000")]] "") tyPort
        { config := some (portVal 9000), version := 5 }
      = ({ config := some (portVal 9000), version := 6 }, .ok (portVal 9000))
    ∧ reloadConfig (noValidators [strProvider [("PORT", .vStr "9000")]] "") tyPort
        { config := some (portVal 9000), version := 5 }
      = ({ config := some (portVal 9000), version := 5 }, false)
    ∧ reloadConfig (noValidators [strProvider [("PORT", .vStr "9000")]] "") tyPort
        { config := none, version := 0 }
      = ({ config := some (portVal 9000), version := 1 }, true) := by
  have h : loadInternal (noValidators [strProvider [("PORT", .vStr "9000")]] "") tyPort
      = .ok (portVal 9000) := rfl
  refine ⟨h, (load_always_bumps_version_watcher_only_on_change _ _ _ _ h).1, ?_, ?_⟩
  · exact (load_always_bumps_version_watcher_only_on_change _ _ _ _ h).2.1 rfl
  · exact (load_always_bumps_version_watcher_only_on_change _ _ _ _ h).2.2 (by simp)

/-! ## Claim C2 -/

/-- C2: a resolution pass that fails at any stage aborts at the first error
and surfaces exactly that error, and both `Load()` and the Watcher's reload
path leave the held instance and version exactly as they were: a provider
failure among the merged providers surfaces before later providers matter, a
binder failure surfaces when merging succeeded, a required-field failure
surfaces when binding succeeded, and in every failing case `loadLocked`
returns `(st, error)` and `reloadConfig` returns `(st, no callback)`. -/
theorem failed_pass_leaves_state_untouched
    (o : OptionsM) (ty : FieldList) (st : LoaderState) (e : LoadErr)
    (h : loadInternal o ty = .error e) :
    loadLocked o ty st = (st, .error e)
    ∧ reloadConfig o ty st = (st, false)
    ∧ (∀ pe, mergeProviders o.pfx o.providers = .error pe → e = .provider pe)
    ∧ (∀ m e2, mergeProviders o.pfx o.providers = .ok m →
        parseGo ty m o.pfx = .error e2 → e = e2)
    ∧ (∀ m vals e3, mergeProviders o.pfx o.providers = .ok m →
        parseGo ty m o.pfx = .ok vals → validateRequired ty vals = some e3 → e = e3)
    ∧ (∀ pfx ps p qs pe, (∀ q ∈ ps, q.values.isOk = true) → p.values = .error pe →
        mergeProviders pfx (ps ++ p :: qs) = .error pe) := by
  refine ⟨by simp [loadLocked, h], by simp [reloadConfig, h], ?_, ?_, ?_, ?_⟩
  · intro pe hm
    rw [loadInternal, hm] at h
    injection h with h'
    exact h'.symm
  · intro m e2 hm hp
    rw [loadInternal, hm] at h
    simp only [hp] at h
    injection h with h'
    exact h'.symm
  · intro m vals e3 hm hp hr
    rw [loadInternal, hm] at h
    simp only [hp] at h
    rw [validateRequired] at hr
    simp only [validateRequired, hr] at h
    injection h with h'
    exact h'.symm
  · intro pfx ps p qs pe hok hbad
    induction ps with
    | nil => simp [mergeProviders, hbad]
    | cons q ps' ih =>
      have hq : q.values.isOk = true := hok q (by simp)
      rw [List.cons_append, mergeProviders]
      cases hqv : q.values with
      | error eq => rw [hqv] at hq; simp [Except.isOk, Except.toBool] at hq
      | ok v =>
        have := ih (fun r hr => hok r (by simp [hr]))
        rw [this]

/-- Witness for C2: a concrete failing provider (`Values()` returns an
error) leaves a loader at version 5 untouched on both paths. -/
theorem failed_pass_leaves_state_untouched_witness :
    loadInternal (noValidators [{ values := .error "boom", prefixAware := false }] "") tyPort
      = .error (.provider "boom")
    ∧ loadLocked (noValidators [{ values := .error "boom", prefixAware := false }] "") tyPort
        { config := some (portVal 1), version := 5 }
      = ({ config := some (portVal 1), version := 5 }, .error (.provider "boom"))
    ∧ reloadConfig (noValidators [{ values := .error "boom", prefixAware := false }] "") tyPort
        { config := some (portVal 1), version := 5 }
      = ({ config := some (portVal 1), version := 5 }, false) := by
  have h : loadInternal (noValidators [{ values := .error "boom", prefixAware := false }] "")
      tyPort = .error (.provider "boom") := rfl
  exact ⟨h, (failed_pass_leaves_state_untouched _ _ _ _ h).1,
    (failed_pass_leaves_state_untouched _ _ _ _ h).2.1⟩

/-! ## Claim C3 -/

/-- C3: with a non-empty prefix, the merger rewrites every key `K` of a
non-prefix-aware provider to `PREFIX_K` and passes a prefix-aware provider's
output through unchanged; the binder consults a leaf field only at the key
`PREFIX_` followed by the derived path key (its result depends on nothing
else in the flat map); and concretely, with prefix `APP` and prefix-aware
env-style input `APP_PORT=9000`, `Port` binds to 9000, while an input
carrying only the unprefixed `PORT` leaves `Port` at zero. -/
theorem prefix_rewrite_and_lookup :
    (∀ pfx p v, pfx ≠ "" → p.prefixAware = false → p.values = .ok v →
        mergeProviders pfx [p] = .ok (v.map fun kv => (pfx ++ "_" ++ kv.1, kv.2)))
    ∧ (∀ pfx p v, p.prefixAware = true → p.values = .ok v →
        mergeProviders pfx [p] = .ok v)
    ∧ (∀ name t path pfx m1 m2,
        lookupLast m1 (leafKey name path pfx) = lookupLast m2 (leafKey name path pfx) →
        parseFieldOne name (.leaf t) path m1 pfx = parseFieldOne name (.leaf t) path m2 pfx)
    ∧ loadInternal
        (noValidators [{ values := .ok [("APP_PORT", .vStr "9000")], prefixAware := true }]
          "APP") tyPort = .ok (portVal 9000)
    ∧ loadInternal
        (noValidators [{ values := .ok [("PORT", .vStr "9000")], prefixAware := true }]
          "APP") tyPort = .ok (portVal 0) := by
  refine ⟨?_, ?_, ?_, rfl, rfl⟩
  · intro pfx p v hne hpa hv
    rw [mergeProviders, hv, mergeProviders]
    simp [hne, hpa, applyPrefix]
  · intro pfx p v hpa hv
    rw [mergeProviders, hv, mergeProviders]
    simp [hpa]
  · intro name t path pfx m1 m2 hsame
    rw [parseFieldOne, parseFieldOne, hsame]

/-- Witness for C3 at concrete inputs: the merger rewrites a `Map` provider's
`PORT` to `APP_PORT`, passes a prefix-aware provider through, and the binder
result coincides on two maps agreeing at the lookup key. -/
theorem prefix_rewrite_and_lookup_witness :
    mergeProviders "APP" [strProvider [("PORT", .vStr "1")]]
      = .ok [("APP_PORT", .vStr "1")]
    ∧ mergeProviders "APP" [{ values := .ok [("PORT", .vStr "1")], prefixAware := true }]
      = .ok [("PORT", .vStr "1")]
    ∧ parseFieldOne "Port" (.leaf .tInt) "" [("APP_PORT", .vStr "7"), ("X", .vStr "a")] "APP"
      = parseFieldOne "Port" (.leaf .tInt) "" [("APP_PORT", .vStr "7")] "APP" := by
  refine ⟨?_, ?_, ?_⟩
  · exact prefix_rewrite_and_lookup.1 "APP" _ [("PORT", .vStr "1")] (by simp) rfl rfl
  · exact prefix_rewrite_and_lookup.2.1 "APP" _ [("PORT", .vStr "1")] rfl rfl
  · exact prefix_rewrite_and_lookup.2.2.1 "Port" .tInt "" "APP" _ _ rfl

/-! ## Claim C4 -/

/-- C4 counterexample: the claim also exempts *empty* values, but the Go
guard is only `!ok || val == nil` — an empty string stored under the key is
handed to coercion, and for an int-typed field `strconv.ParseInt("")` fails,
so binding reports a `Parse` error instead of leaving the field at zero. -/
theorem empty_value_parse_error_cx :
    parseGo tyPort [("PORT", .vStr "")] "" = .error (.fieldErr "PORT" .parse) := rfl

/-- C4 as amended: only a key that is absent from the merged mapping, or
whose stored value is null, leaves the leaf at the zero value of its type
with no bind-time error (an empty-string value is instead passed to the
coercion for the destination type, which may fail). -/
theorem absent_or_null_leaves_zero
    (name : String) (t : Ty) (path : String) (m : FlatMap) (pfx : String)
    (h : lookupLast m (leafKey name path pfx) = none
       ∨ lookupLast m (leafKey name path pfx) = some .vNull) :
    parseFieldOne name (.leaf t) path m pfx = .ok (.leaf (zeroLeaf t)) := by
  rcases h with h | h <;> rw [parseFieldOne, h]

/-- Witness for C4: an absent `PORT` and a nil-valued `PORT` both leave an
int field at zero. -/
theorem absent_or_null_leaves_zero_witness :
    parseFieldOne "Port" (.leaf .tInt) "" [("HOST", .vStr "h")] ""
      = .ok (.leaf (zeroLeaf .tInt))
    ∧ parseFieldOne "Port" (.leaf .tInt) "" [("PORT", .vNull)] ""
      = .ok (.leaf (zeroLeaf .tInt)) := by
  exact ⟨absent_or_null_leaves_zero "Port" .tInt "" _ "" (Or.inl rfl),
    absent_or_null_leaves_zero "Port" .tInt "" _ "" (Or.inr rfl)⟩

/-! ## Claim C5 -/

/-- C5 counterexample: the claim's boundary rule ("preceding lowercase, or
preceding uppercase with following lowercase") disagrees with the code when
the preceding character is neither case (e.g. a digit): on `"A1Bc"` the code
emits `"A1_BC"` (boundary before `B` because the *next* character is
lowercase, with no test on the digit before it) while the claimed rule
yields `"A1BC"`. -/
theorem snake_spec_formula_cx :
    toScreamingSnake "A1Bc" = "A1_BC"
    ∧ toScreamingSnakeSpecC5 "A1Bc" = "A1BC"
    ∧ toScreamingSnake "A1Bc" ≠ toScreamingSnakeSpecC5 "A1Bc" := by
  refine ⟨by decide, by decide, by decide⟩

/-- C5 as amended: key derivation inserts a boundary before an uppercase
letter (at positions after the first) exactly when the preceding character
is lowercase, **or the following character exists and is lowercase —
whatever the preceding character is** — and then uppercases the whole
string; it is idempotent on every input string, and maps the four claimed
examples correctly. -/
theorem snake_boundary_idem_examples :
    (∀ prev r next?, snakeBoundary prev r next? =
        (isUpperRune r && (isLowerRune prev || next?.elim false isLowerRune)))
    ∧ (∀ s, toScreamingSnake (toScreamingSnake s) = toScreamingSnake s)
    ∧ toScreamingSnake "Port" = "PORT"
    ∧ toScreamingSnake "DatabaseURL" = "DATABASE_URL"
    ∧ toScreamingSnake "HTTPServer" = "HTTP_SERVER"
    ∧ toScreamingSnake "JWTSecret" = "JWT_SECRET" := by
  refine ⟨?_, toScreamingSnake_idem, by decide, by decide, by decide, by decide⟩
  intro prev r next?
  cases next? <;> cases hu : isUpperRune r <;> cases hl : isLowerRune prev <;>
    simp [snakeBoundary, hu, hl, Option.elim]

/-! ## Claim C6 -/

/-- C6: the merge inserts each provider's output into the accumulator in
list order, later entries overwriting earlier ones that share a key: a key
bound in the suffix of the accumulated pairs wins any earlier binding, and
concretely `defaults PORT=8080` followed by an override `PORT=5000` resolves
— and binds — to 5000. -/
theorem later_provider_overrides :
    (∀ p rest v acc, p.values = .ok v → mergeProviders "" rest = .ok acc →
        mergeProviders "" (p :: rest) = .ok (v ++ acc))
    ∧ (∀ (m1 m2 : FlatMap) k v, lookupLast m2 k = some v →
        lookupLast (m1 ++ m2) k = some v)
    ∧ (mergeProviders ""
        [strProvider [("PORT", .vStr "8080")], strProvider [("PORT", .vStr "5000")]]).map
        (fun m => lookupLast m "PORT") = .ok (some (.vStr "5000"))
    ∧ loadInternal
        (noValidators
          [strProvider [("PORT", .vStr "8080")], strProvider [("PORT", .vStr "5000")]] "")
        tyPort = .ok (portVal 5000) := by
  refine ⟨?_, ?_, rfl, rfl⟩
  · intro p rest v acc hv hrest
    rw [mergeProviders, hv, hrest]
    simp
  · intro m1 m2 k v h
    induction m1 with
    | nil => simpa using h
    | cons kv m1' ih =>
      rw [List.cons_append, lookupLast, ih]

/-- Witness for C6 at concrete inputs: the accumulator is the concatenation
in provider order, and the later binding of `PORT` wins the lookup. -/
theorem later_provider_overrides_witness :
    mergeProviders ""
      [strProvider [("PORT", .vStr "8080")], strProvider [("PORT", .vStr "5000")]]
      = .ok ([("PORT", .vStr "8080")] ++ [("PORT", .vStr "5000")])
    ∧ lookupLast ([("HOST", .vStr "h")] ++ [("PORT", .vStr "5000")]) "PORT"
      = some (.vStr "5000") := by
  refine ⟨?_, ?_⟩
  · exact later_provider_overrides.1 _ [strProvider [("PORT", .vStr "5000")]]
      [("PORT", .vStr "8080")] [("PORT", .vStr "5000")] rfl rfl
  · exact later_provider_overrides.2.1 [("HOST", .vStr "h")] [("PORT", .vStr "5000")]
      "PORT" (.vStr "5000") rfl

/-! ## Claim C7 -/

/-- C7 counterexample: with prefix `APP` and a required `Port int` left
unset, resolution does fail with a `Required` error — but the error names
the *unprefixed* key `PORT` (`checkRequired` builds
`path + toScreamingSnake(name)` and never consults the prefix), not the
prefix-qualified lookup key `APP_PORT` the claim demands. -/
theorem required_error_unprefixed_cx :
    loadInternal (noValidators [] "APP") tyPortReq = .error (.fieldErr "PORT" .required)
    ∧ ("PORT" : String) ≠ "APP_PORT" := ⟨rfl, by decide⟩

/-- C7 as amended: a field tagged required that is bound to the zero value
makes resolution fail with a `Required` error naming the *path-qualified
upper-snake key without the configured prefix*; a field bound to any
non-zero value raises no `Required` error and (absent validators) resolution
succeeds. -/
theorem required_field_error_semantics
    (name : String) (t : Ty) (o : OptionsM) (m : FlatMap)
    (hm : mergeProviders o.pfx o.providers = .ok m) :
    (parseGo (.fcons name true (.leaf t) .fnil) m o.pfx
        = .ok (.rcons (.leaf (zeroLeaf t)) .rnil) →
      loadInternal o (.fcons name true (.leaf t) .fnil)
        = .error (.fieldErr (toScreamingSnake name) .required))
    ∧ (∀ lv, parseGo (.fcons name true (.leaf t) .fnil) m o.pfx
          = .ok (.rcons (.leaf lv) .rnil) →
        isZeroLeaf lv = false →
        validateRequired (.fcons name true (.leaf t) .fnil) (.rcons (.leaf lv) .rnil)
          = none
        ∧ (o.validator = none → o.typeValidator = none →
            loadInternal o (.fcons name true (.leaf t) .fnil)
              = .ok (.strct (.rcons (.leaf lv) .rnil)))) := by
  constructor
  · intro hp
    rw [loadInternal, hm]
    simp only [hp]
    have hz : isZeroLeaf (zeroLeaf t) = true := by cases t <;> rfl
    simp [validateRequired, checkRequiredList, checkRequiredOne, hz]
  · intro lv hp hnz
    have hval : validateRequired (.fcons name true (.leaf t) .fnil)
        (.rcons (.leaf lv) .rnil) = none := by
      simp [validateRequired, checkRequiredList, checkRequiredOne, hnz]
    refine ⟨hval, fun hv htv => ?_⟩
    rw [loadInternal, hm]
    simp only [hp, hval, hv, htv]
    rfl

/-- Witness for C7: with no providers a required `Port` fails naming `PORT`;
with a provider supplying `PORT=1` the same record resolves successfully. -/
theorem required_field_error_semantics_witness :
    loadInternal (noValidators [] "") tyPortReq = .error (.fieldErr "PORT" .required)
    ∧ loadInternal (noValidators [strProvider [("PORT", .vStr "1")]] "") tyPortReq
      = .ok (.strct (.rcons (.leaf (.i 1)) .rnil)) := by
  constructor
  · exact (required_field_error_semantics "Port" .tInt (noValidators [] "") [] rfl).1 rfl
  · exact ((required_field_error_semantics "Port" .tInt
      (noValidators [strProvider [("PORT", .vStr "1")]] "")
      [("PORT", .vStr "1")] rfl).2 (.i 1) rfl rfl).2 rfl rfl

/-! ## Claim C8 -/

/-- C8: a `time.Duration`-typed field fed the string `"5m30s"` binds to
exactly 330 seconds (330 000 000 000 ns), and fed a native integer count
binds to exactly that many nanoseconds. -/
theorem duration_string_and_numeric :
    setField .tDuration (.vStr "5m30s") = .ok (.dur (330 * 1000000000))
    ∧ (∀ n : Int, setField .tDuration (.vInt n) = .ok (.dur n)) :=
  ⟨rfl, fun _ => rfl⟩

/-! ## Claim C10 -/

/-- C10 counterexample: binding the string `"300"` to an `int8` field does
*not* panic and does not return a Parse error: `strconv.ParseInt` succeeds
with 300 and `reflect.Value.SetInt` silently stores the two's-complement
truncation `int8(300) = 44`. -/
theorem int8_overflow_no_panic_cx :
    setField .tInt8 (.vStr "300") = .ok (.i8 44) := rfl

/-- C10 as amended: for a signed or unsigned integer destination narrower
than 64 bits (modelled at width 8 for both signednesses), a value that
parses successfully as a 64-bit integer but exceeds the destination width is
silently truncated to the low bits — two's-complement via
`reflect.Value.SetInt` for the signed kinds, low-8-bits via
`reflect.Value.SetUint` for the unsigned kinds — and stored as a success,
with neither a panic nor a Parse error: both reflect setters perform an
unchecked conversion. -/
theorem int8_store_truncates (s : String) (n : Int)
    (h : parseInt64 s = .ok n) :
    setField .tInt8 (.vStr s) = .ok (.i8 (wrap8 n))
    ∧ (∀ m : Int, setField .tInt8 (.vInt m) = .ok (.i8 (wrap8 m)))
    ∧ (∀ u k, parseUint64 u = .ok k →
        setField .tUint8 (.vStr u) = .ok (.u8 (wrapU8 k))) := by
  refine ⟨?_, fun _ => rfl, ?_⟩
  · rw [setField, h]
    rfl
  · intro u k hk
    rw [setField, hk]
    rfl

/-- Witness for C10: `"300"` parses to 300 and is stored as `int8(300) = 44`
in an `int8` field, and as `uint8(300) = 44` in a `uint8` field. -/
theorem int8_store_truncates_witness :
    parseInt64 "300" = .ok 300
    ∧ setField .tInt8 (.vStr "300") = .ok (.i8 (wrap8 300))
    ∧ parseUint64 "300" = .ok 300
    ∧ setField .tUint8 (.vStr "300") = .ok (.u8 (wrapU8 300)) :=
  ⟨rfl, (int8_store_truncates "300" 300 rfl).1, rfl,
    (int8_store_truncates "300" 300 rfl).2.2 "300" 300 rfl⟩

/-! ## Claim C9 -/

/-- Along every reachable interleaving, once `StopWatching` has returned the
poll goroutine has exited (`wg.Wait` completed before the return). -/
theorem wreach_stop_returned_loop_done (s : WatchSys) (h : WReach watchInit s) :
    s.stopReturned = true → s.loopDone = true := by
  induction h with
  | refl => intro h0; simp [watchInit] at h0
  | tail _ hstep ih =>
    obtain ⟨lab, hs⟩ := hstep
    cases hs with
    | tickReload h => exact ih
    | loopExit h1 h2 => intro _; rfl
    | stopSignal h => exact ih
    | stopReturn h1 h2 h3 => intro _; exact h2
    | stopNoop h => exact ih
    | runCallback n h => exact ih

/-- C9 counterexample: a legal interleaving in which a reload callback fires
*after* `StopWatching` has returned.  The poll loop performs one successful
changed reload (spawning the callback goroutine, which `triggerOnReload`
starts with `go` and which the WaitGroup does not track), `StopWatching`
closes the channel, the loop exits, `wg.Wait` completes and `StopWatching`
returns — and only then is the spawned callback goroutine scheduled and
runs. -/
theorem callback_after_stop_cx :
    WStep watchInit .tickReload
      { watching := true, stopClosed := false, loopDone := false,
        stopReturned := false, pendingCallbacks := 1, firedCallbacks := 0 }
    ∧ WStep
      { watching := true, stopClosed := false, loopDone := false,
        stopReturned := false, pendingCallbacks := 1, firedCallbacks := 0 }
      .stopSignal
      { watching := false, stopClosed := true, loopDone := false,
        stopReturned := false, pendingCallbacks := 1, firedCallbacks := 0 }
    ∧ WStep
      { watching := false, stopClosed := true, loopDone := false,
        stopReturned := false, pendingCallbacks := 1, firedCallbacks := 0 }
      .loopExit
      { watching := false, stopClosed := true, loopDone := true,
        stopReturned := false, pendingCallbacks := 1, firedCallbacks := 0 }
    ∧ WStep
      { watching := false, stopClosed := true, loopDone := true,
        stopReturned := false, pendingCallbacks := 1, firedCallbacks := 0 }
      .stopReturn
      { watching := false, stopClosed := true, loopDone := true,
        stopReturned := true, pendingCallbacks := 1, firedCallbacks := 0 }
    ∧ WStep
      { watching := false, stopClosed := true, loopDone := true,
        stopReturned := true, pendingCallbacks := 1, firedCallbacks := 0 }
      .runCallback
      { watching := false, stopClosed := true, loopDone := true,
        stopReturned := true, pendingCallbacks := 0, firedCallbacks := 1 } :=
  ⟨WStep.tickReload _ rfl, WStep.stopSignal _ rfl, WStep.loopExit _ rfl rfl,
    WStep.stopReturn _ rfl rfl rfl, WStep.runCallback _ 0 rfl⟩

/-- C9 as amended: `StopWatching` is idempotent (on a non-watching Loader it
returns immediately changing nothing) and blocks until the background poll
goroutine has exited, and after it returns no further *reload* (poll-tick
re-resolution) can occur — but a reload callback that was already spawned
asynchronously by `triggerOnReload` may still run after `StopWatching`
returns, because the callback goroutine is not tracked by the WaitGroup. -/
theorem stop_watching_semantics :
    (∀ s s', WStep s .stopReturn s' → s.loopDone = true)
    ∧ (∀ s, s.watching = false → WStep s .stopNoop s)
    ∧ (∀ s, WReach watchInit s → s.stopReturned = true →
        ∀ lab s', WStep s lab s' → lab ≠ .tickReload) := by
  refine ⟨?_, fun s h => WStep.stopNoop s h, ?_⟩
  · intro s s' h
    cases h with
    | stopReturn h1 h2 h3 => exact h2
  · intro s hreach hret lab s' hstep
    have hdone : s.loopDone = true := wreach_stop_returned_loop_done s hreach hret
    cases hstep with
    | tickReload h => rw [h] at hdone; exact absurd hdone (by simp)
    | loopExit h1 h2 => simp
    | stopSignal h => simp
    | stopReturn h1 h2 h3 => simp
    | stopNoop h => simp
    | runCallback n h => simp

/-- Witness for C9's amended statement, on the concrete interleaving of the
counterexample: the `stopReturn` step indeed required the loop to have
exited; `StopWatching` on the stopped system is a no-op; and from the
post-return state a pending callback may run (label `runCallback`), which is
consistent with the no-further-tickReload guarantee. -/
theorem stop_watching_semantics_witness :
    ({ watching := false, stopClosed := true, loopDone := true,
        stopReturned := false, pendingCallbacks := 1, firedCallbacks := 0 } : WatchSys).loopDone
      = true
    ∧ WStep
      { watching := false, stopClosed := true, loopDone := true,
        stopReturned := true, pendingCallbacks := 0, firedCallbacks := 1 }
      .stopNoop
      { watching := false, stopClosed := true, loopDone := true,
        stopReturned := true, pendingCallbacks := 0, firedCallbacks := 1 }
    ∧ (WLabel.runCallback ≠ WLabel.tickReload) := by
  refine ⟨?_, stop_watching_semantics.2.1 _ rfl, ?_⟩
  · exact stop_watching_semantics.1
      { watching := false, stopClosed := true, loopDone := true,
        stopReturned := false, pendingCallbacks := 1, firedCallbacks := 0 }
      { watching := false, stopClosed := true, loopDone := true,
        stopReturned := true, pendingCallbacks := 1, firedCallbacks := 0 }
      (WStep.stopReturn _ rfl rfl rfl)
  · have hreach : WReach watchInit
        { watching := false, stopClosed := true, loopDone := true,
          stopReturned := true, pendingCallbacks := 1, firedCallbacks := 0 } :=
      Relation.ReflTransGen.head ⟨_, WStep.tickReload _ rfl⟩
        (Relation.ReflTransGen.head ⟨_, WStep.stopSignal _ rfl⟩
          (Relation.ReflTransGen.head ⟨_, WStep.loopExit _ rfl rfl⟩
            (Relation.ReflTransGen.head ⟨_, WStep.stopReturn _ rfl rfl rfl⟩
              Relation.ReflTransGen.refl)))
    exact stop_watching_semantics.2.2 _ hreach rfl .runCallback _
      (WStep.runCallback _ 0 rfl)

end Envx
